import Mathlib

/-!
Verification of the discordia declarative-reconciliation core.

This development is a shallow embedding of the Python sources:
  * `src/discordia/state/models.py`   — the four entity kinds;
  * `src/discordia/state/memory.py`   — the in-memory entity cache (`MemoryState`);
  * `src/discordia/state/registry.py` — the name-lookup registry (`EntityRegistry`);
  * `src/discordia/templates/*.py`    — templates and channel patterns;
  * `src/discordia/engine/reconciler.py` — the reconciliation loop;
  * `src/discordia/discovery.py`      — remote-state discovery.

Modelling conventions:
  * Discord snowflake identifiers are `Nat`.
  * Message timestamps are `Nat` (datetime values ordered totally, as in Python).
  * Python dicts are insertion-ordered association lists: updating an existing
    key rewrites it in place, a new key is appended at the end.  Iteration over
    `.values()` is `List.map Prod.snd`.
  * Python exceptions raised by an operation are modelled with `Except String`,
    carrying the exception message; the cache state is only returned on the
    `.ok` path, mirroring the fact that the Python code raises before any
    assignment, so the caller's state is untouched on the error path.
  * The wall-clock `date.today()` used by the channel patterns is passed in
    explicitly as a proleptic-Gregorian ordinal (`Nat`, day 1 = 0001-01-01),
    exactly `datetime.date.toordinal`.
  * `created_at` / `updated_at` metadata timestamps are omitted: they are
    write-only default fields never read by any verified operation.
-/

deriving instance DecidableEq for Except

namespace Discordia

/-! ## Entities — src/discordia/state/models.py -/

/-- Runtime Discord category state (`Category` in state/models.py). -/
structure Category where
  id : Nat
  name : String
  server_id : Nat
  position : Int
deriving Repr, DecidableEq

/-- Runtime Discord channel state (`Channel` in state/models.py). -/
structure Channel where
  id : Nat
  name : String
  category_id : Option Nat
  server_id : Nat
  position : Int
  topic : Option String
deriving Repr, DecidableEq

/-- Runtime Discord user state (`User` in state/models.py). -/
structure User where
  id : Nat
  username : String
  discriminator : String
  bot : Bool
deriving Repr, DecidableEq

/-- Runtime Discord message state (`Message` in state/models.py). -/
structure Message where
  id : Nat
  content : String
  author_id : Nat
  channel_id : Nat
  timestamp : Nat
  edited_at : Option Nat
deriving Repr, DecidableEq

/-! ## Python dict as insertion-ordered association list -/

/-- `d[k]` lookup on a Python dict (`dict.get`). -/
def dictGet (d : List (Nat × α)) (k : Nat) : Option α :=
  match d.find? (fun p => p.1 == k) with
  | some p => some p.2
  | none => none

/-- `d[k] = v` on a Python dict: in-place rewrite of an existing key,
append for a new key (insertion order preserved). -/
def dictSet (d : List (Nat × α)) (k : Nat) (v : α) : List (Nat × α) :=
  if d.any (fun p => p.1 == k) then
    d.map (fun p => if p.1 == k then (k, v) else p)
  else
    d ++ [(k, v)]

/-- `k in d` membership test on a Python dict. -/
def dictHas (d : List (Nat × α)) (k : Nat) : Bool :=
  d.any (fun p => p.1 == k)

/-! ## Entity cache — MemoryState, src/discordia/state/memory.py -/

/-- The in-memory entity cache.  The Python class also carries an
`asyncio.Lock` serializing every operation; each Lean operation is one
critical section of that lock. -/
structure MemoryState where
  categories : List (Nat × Category)
  channels : List (Nat × Channel)
  users : List (Nat × User)
  messages : List (Nat × Message)
deriving Repr, DecidableEq

/-- The empty cache (`MemoryState()` with default factories). -/
def MemoryState.empty : MemoryState := ⟨[], [], [], []⟩

/-- `MemoryState.save_category`: unconditional upsert by id. -/
def MemoryState.save_category (s : MemoryState) (c : Category) : MemoryState :=
  { s with categories := dictSet s.categories c.id c }

/-- `MemoryState.save_channel`: referential check (the category referenced by a
non-null `category_id` must exist), then upsert by id.  The check and the
raise happen before the write, so an error leaves the cache untouched. -/
def MemoryState.save_channel (s : MemoryState) (c : Channel) : Except String MemoryState :=
  match c.category_id with
  | some cid =>
    if !dictHas s.categories cid then
      .error ("Category " ++ toString cid ++ " not found for channel " ++ toString c.id)
    else
      .ok { s with channels := dictSet s.channels c.id c }
  | none => .ok { s with channels := dictSet s.channels c.id c }

/-- `MemoryState.save_user`: unconditional upsert by id. -/
def MemoryState.save_user (s : MemoryState) (u : User) : MemoryState :=
  { s with users := dictSet s.users u.id u }

/-- `MemoryState.save_message`: author must exist, then channel must exist
(checked in that order), then upsert by id. -/
def MemoryState.save_message (s : MemoryState) (m : Message) : Except String MemoryState :=
  if !dictHas s.users m.author_id then
    .error ("User " ++ toString m.author_id ++ " not found for message " ++ toString m.id)
  else if !dictHas s.channels m.channel_id then
    .error ("Channel " ++ toString m.channel_id ++ " not found for message " ++ toString m.id)
  else
    .ok { s with messages := dictSet s.messages m.id m }

/-- `MemoryState.get_category`. -/
def MemoryState.get_category (s : MemoryState) (id : Nat) : Option Category :=
  dictGet s.categories id

/-- `MemoryState.get_channel`. -/
def MemoryState.get_channel (s : MemoryState) (id : Nat) : Option Channel :=
  dictGet s.channels id

/-- `MemoryState.get_user`. -/
def MemoryState.get_user (s : MemoryState) (id : Nat) : Option User :=
  dictGet s.users id

/-- The sort key of `get_messages`: `lambda m: (m.timestamp, m.id)`. -/
def msgKey (m : Message) : Nat × Nat := (m.timestamp, m.id)

/-- Non-strict order on messages induced by the `(timestamp, id)` sort key
(lexicographic, the comparison Python's `sorted` performs on the key tuples). -/
def msgLE (a b : Message) : Prop :=
  a.timestamp < b.timestamp ∨ (a.timestamp = b.timestamp ∧ a.id ≤ b.id)

/-- Strict version of `msgLE`. -/
def msgLT (a b : Message) : Prop :=
  a.timestamp < b.timestamp ∨ (a.timestamp = b.timestamp ∧ a.id < b.id)

instance : DecidableRel msgLE := fun a b => by unfold msgLE; exact inferInstance

instance : DecidableRel msgLT := fun a b => by unfold msgLT; exact inferInstance

instance : IsTotal Message msgLE := ⟨fun a b => by unfold msgLE; omega⟩

instance : IsTrans Message msgLE := ⟨fun a b c hab hbc => by unfold msgLE at *; omega⟩

/-- The messages of one channel, in cache insertion order:
`[m for m in self.messages.values() if m.channel_id == channel_id]`. -/
def MemoryState.channel_messages (s : MemoryState) (channelId : Nat) : List Message :=
  (s.messages.map Prod.snd).filter (fun m => m.channel_id == channelId)

/-- `MemoryState.get_messages`: filter by channel, sort by `(timestamp, id)`
(Python's stable sort; `insertionSort` is likewise stable), then
`ordered[-limit:] if limit > 0 else ordered`.  For a positive `limit`,
`ordered[-limit:]` keeps the last `min limit len` entries, i.e. drops the
first `len - limit`. -/
def MemoryState.get_messages (s : MemoryState) (channelId : Nat) (limit : Int) : List Message :=
  if 0 < limit then
    (List.insertionSort msgLE (s.channel_messages channelId)).drop
      ((List.insertionSort msgLE (s.channel_messages channelId)).length - limit.toNat)
  else
    List.insertionSort msgLE (s.channel_messages channelId)

/-! ## Entity registry — src/discordia/state/registry.py

The Python lookups raise `CategoryNotFoundError` / `ChannelNotFoundError` on a
miss; the reconciler catches exactly that, so the miss is modelled as `none`. -/

/-- `EntityRegistry.get_category_by_name`: first match by `(name, server_id)`
over the cache's categories in insertion order. -/
def get_category_by_name (s : MemoryState) (name : String) (serverId : Nat) : Option Category :=
  (s.categories.map Prod.snd).find? (fun c => c.name == name && c.server_id == serverId)

/-- `EntityRegistry.get_channel_by_name`: first match by `(name, server_id)`
over the cache's channels in insertion order.  The category of the channel is
not part of the lookup key. -/
def get_channel_by_name (s : MemoryState) (name : String) (serverId : Nat) : Option Channel :=
  (s.channels.map Prod.snd).find? (fun c => c.name == name && c.server_id == serverId)

/-- `EntityRegistry.get_channels_in_category`. -/
def get_channels_in_category (s : MemoryState) (categoryId : Nat) : List Channel :=
  (s.channels.map Prod.snd).filter (fun c => c.category_id == some categoryId)

/-! ## Proleptic-Gregorian calendar — semantics of `datetime.date`

The channel patterns use `date.today()`, `timedelta` arithmetic,
`date.isoformat()` and `date.isocalendar()`.  A date is its ordinal
(`date.toordinal()`, day 1 = 0001-01-01); the functions below are the
CPython `datetime` algorithms on ordinals. -/

/-- Gregorian leap-year rule. -/
def isLeap (y : Nat) : Bool :=
  y % 4 == 0 && (y % 100 != 0 || y % 400 == 0)

/-- Days in a month of a non-leap year (`_DAYS_IN_MONTH`). -/
def daysInMonthTable (m : Nat) : Nat :=
  if m == 2 then 28
  else if m == 4 || m == 6 || m == 9 || m == 11 then 30
  else 31

/-- Days before the first of a month in a non-leap year (`_DAYS_BEFORE_MONTH`). -/
def daysBeforeMonthTable (m : Nat) : Nat :=
  match m with
  | 1 => 0 | 2 => 31 | 3 => 59 | 4 => 90 | 5 => 120 | 6 => 151
  | 7 => 181 | 8 => 212 | 9 => 243 | 10 => 273 | 11 => 304 | 12 => 334
  | _ => 365

/-- Days before January 1 of a year (`_days_before_year`). -/
def daysBeforeYear (y : Nat) : Nat :=
  let p := y - 1
  p * 365 + p / 4 - p / 100 + p / 400

/-- Ordinal of January 1 of a year. -/
def jan1Ordinal (y : Nat) : Nat :=
  daysBeforeYear y + 1

/-- Ordinal to `(year, month, day)` (`_ord2ymd`, via 400/100/4/1-year cycles). -/
def ord2ymd (n : Nat) : Nat × Nat × Nat :=
  let n0 := n - 1
  let n400 := n0 / 146097
  let r400 := n0 % 146097
  let n100 := r400 / 36524
  let r100 := r400 % 36524
  let n4 := r100 / 1461
  let r4 := r100 % 1461
  let n1 := r4 / 365
  let r1 := r4 % 365
  let year := n400 * 400 + n100 * 100 + n4 * 4 + n1 + 1
  if n1 == 4 || n100 == 4 then
    (year - 1, 12, 31)
  else
    let leap := n1 == 3 && (n4 != 24 || n100 == 3)
    let month0 := (r1 + 50) / 32
    let preceding := daysBeforeMonthTable month0 + (if month0 > 2 && leap then 1 else 0)
    if preceding > r1 then
      let month := month0 - 1
      let preceding2 := preceding - (daysInMonthTable month + (if month == 2 && leap then 1 else 0))
      (year, month, r1 - preceding2 + 1)
    else
      (year, month0, r1 - preceding + 1)

/-- Zero-pad to two digits. -/
def pad2 (n : Nat) : String :=
  if n < 10 then "0" ++ toString n else toString n

/-- Zero-pad to four digits. -/
def pad4 (n : Nat) : String :=
  if n < 10 then "000" ++ toString n
  else if n < 100 then "00" ++ toString n
  else if n < 1000 then "0" ++ toString n
  else toString n

/-- `date.isoformat()` of an ordinal: `YYYY-MM-DD`. -/
def dateIso (n : Nat) : String :=
  let ymd := ord2ymd n
  pad4 ymd.1 ++ "-" ++ pad2 ymd.2.1 ++ "-" ++ pad2 ymd.2.2

/-- `date.weekday()` of an ordinal (Monday = 0); ordinal 1 is a Monday. -/
def weekdayOf (n : Nat) : Nat :=
  (n - 1) % 7

/-- `_isoweek1monday`: ordinal of the Monday starting ISO week 1 of a year.
`firstweekday` is `(jan1Ordinal y + 6) % 7`, i.e. the weekday of January 1;
the Monday on or before January 1 is taken, pushed one week later when
January 1 falls after Thursday. -/
def isoweek1monday (y : Nat) : Nat :=
  if (jan1Ordinal y + 6) % 7 > 3 then
    jan1Ordinal y - (jan1Ordinal y + 6) % 7 + 7
  else
    jan1Ordinal y - (jan1Ordinal y + 6) % 7

/-- `date.isocalendar()` of an ordinal: `(ISO year, ISO week, ISO weekday)`,
weekday 1–7 with Monday = 1.  Python's `divmod` floors, hence `fdiv`/`fmod`.
`week, day = divmod(n - week1monday(year), 7)`; a negative week belongs to the
previous ISO year, week ≥ 52 may roll into week 1 of the next ISO year. -/
def isocalendar (n : Nat) : Nat × Nat × Nat :=
  if ((n : Int) - (isoweek1monday (ord2ymd n).1)).fdiv 7 < 0 then
    ((ord2ymd n).1 - 1,
     (((n : Int) - (isoweek1monday ((ord2ymd n).1 - 1))).fdiv 7 + 1).toNat,
     (((n : Int) - (isoweek1monday ((ord2ymd n).1 - 1))).fmod 7 + 1).toNat)
  else if ((n : Int) - (isoweek1monday (ord2ymd n).1)).fdiv 7 ≥ 52 ∧
      (n : Int) ≥ (isoweek1monday ((ord2ymd n).1 + 1) : Nat) then
    ((ord2ymd n).1 + 1, 1,
     (((n : Int) - (isoweek1monday (ord2ymd n).1)).fmod 7 + 1).toNat)
  else
    ((ord2ymd n).1,
     (((n : Int) - (isoweek1monday (ord2ymd n).1)).fdiv 7 + 1).toNat,
     (((n : Int) - (isoweek1monday (ord2ymd n).1)).fmod 7 + 1).toNat)

/-! ## Templates — src/discordia/templates/ -/

/-- Fields shared by every channel template (`BaseChannelTemplate`).
Pydantic validates these at construction (frozen, extra fields forbidden);
here they are plain data: the claims quantify over already-constructed
templates. -/
structure BaseChannelFields where
  name : String
  topic : Option String
  position : Option Int
deriving Repr, DecidableEq

/-- The discriminated union of channel templates (`ChannelTemplate` in
templates/channel.py): TEXT / VOICE / FORUM / ANNOUNCEMENT variants with their
kind-specific fields. -/
inductive ChannelTemplate where
  | text (base : BaseChannelFields) (slowmode_seconds : Nat) (nsfw : Bool)
  | voice (base : BaseChannelFields) (bitrate : Nat) (user_limit : Nat)
  | forum (base : BaseChannelFields) (default_thread_slowmode : Nat)
  | announcement (base : BaseChannelFields)
deriving Repr, DecidableEq

/-- The shared base fields of a channel template. -/
def ChannelTemplate.base : ChannelTemplate → BaseChannelFields
  | .text b _ _ => b
  | .voice b _ _ => b
  | .forum b _ => b
  | .announcement b => b

/-- `isinstance(template, TextChannelTemplate)`. -/
def ChannelTemplate.isText : ChannelTemplate → Bool
  | .text _ _ _ => true
  | _ => false

/-- `CategoryTemplate` (templates/category.py). -/
structure CategoryTemplate where
  name : String
  position : Option Int
  channels : List ChannelTemplate
deriving Repr, DecidableEq

/-- The channel patterns (`DailyLogPattern`, `PrefixedPattern` in
templates/patterns.py; `WeekDayPattern` in templates/weekday_pattern.py), as a
closed sum.  `pre` is the Python field `prefix`.  Field bounds
(`days_ahead ≤ 30` etc.) are pydantic construction-time validators and appear
as hypotheses of the theorems. -/
inductive ChannelPattern where
  | daily (days_ahead : Nat) (days_behind : Nat) (topic : Option String)
  | prefixed (pre : String) (suffixes : List String) (separator : String)
      (topic_generator : Option (String → String))
  | weekday (weeks_ahead : Nat) (weeks_behind : Nat) (topic : Option String)

/-- The `while current <= end` day loop of the date patterns, over ordinals. -/
def genDays (current : Nat) (endDay : Nat) : List Nat :=
  if current ≤ endDay then current :: genDays (current + 1) endDay else []
termination_by endDay + 1 - current

/-- `ChannelPattern.generate()`, with `date.today()` passed as the ordinal
`today`.  Each variant materializes its full list of text-channel templates:
one per calendar day named by ISO date (daily), one per suffix (prefixed), or
one per day of the whole-week window named `WW-DD` (weekday). -/
def ChannelPattern.generate (p : ChannelPattern) (today : Nat) : List ChannelTemplate :=
  match p with
  | .daily days_ahead days_behind topic =>
    (genDays (today - days_behind) (today + days_ahead)).map
      (fun d => .text ⟨dateIso d, topic, none⟩ 0 false)
  | .prefixed pre suffixes separator topic_generator =>
    suffixes.enum.map (fun p =>
      .text ⟨pre ++ separator ++ p.2,
             topic_generator.map (fun f => f p.2),
             some (Int.ofNat p.1)⟩ 0 false)
  | .weekday weeks_ahead weeks_behind topic =>
    let days_behind := weeks_behind * 7 + weekdayOf today
    let days_ahead := weeks_ahead * 7 + (6 - weekdayOf today)
    (genDays (today - days_behind) (today + days_ahead)).map
      (fun d =>
        let cal := isocalendar d
        .text ⟨pad2 cal.2.1 ++ "-" ++ pad2 cal.2.2, topic, none⟩ 0 false)

/-- `ServerTemplate` (templates/server.py). -/
structure ServerTemplate where
  categories : List CategoryTemplate
  uncategorized_channels : List ChannelTemplate
  patterns : List ChannelPattern

/-- `ServerTemplate.resolve_patterns()`: a new template whose uncategorized
channels are the static ones followed by each pattern's `generate()` output in
pattern order, and whose pattern list is empty. -/
def ServerTemplate.resolve_patterns (t : ServerTemplate) (today : Nat) : ServerTemplate :=
  { categories := t.categories
    uncategorized_channels :=
      t.patterns.foldl (fun acc p => acc ++ p.generate today) t.uncategorized_channels
    patterns := [] }

/-! ## Reconciler — src/discordia/engine/reconciler.py

The remote-creation collaborator (`guild.create_category` /
`guild.create_text_channel`) is modelled as a fresh-id allocator that echoes
the requested name: the remote answers `{id := nextId, name := requested}`
and the allocator advances.  Each result carries the number of remote-creation
calls performed; an exception anywhere aborts the whole run
(`ReconciliationError`), modelled by the `Except` error path. -/

/-- Outcome of a full `Reconciler.reconcile` run. -/
structure ReconcileResult where
  state : MemoryState
  nextId : Nat
  categoryCalls : Nat
  channelCalls : Nat
deriving Repr, DecidableEq

/-- `Reconciler._reconcile_channel` for one channel template: look the name up
via the registry; on a hit do nothing; on a miss, only a `TextChannelTemplate`
is created remotely (`create_text_channel`) and saved; any other kind is
silently skipped.  Returns `(state, nextId, creation calls)`. -/
def _reconcile_channel (serverId : Nat) (st : MemoryState) (nextId : Nat)
    (t : ChannelTemplate) (categoryId : Option Nat) :
    Except String (MemoryState × Nat × Nat) :=
  match get_channel_by_name st t.base.name serverId with
  | some _ => .ok (st, nextId, 0)
  | none =>
    match t with
    | .text base _ _ =>
      let ch : Channel :=
        { id := nextId, name := base.name, category_id := categoryId,
          server_id := serverId, position := base.position.getD 0, topic := base.topic }
      match st.save_channel ch with
      | .ok st' => .ok (st', nextId + 1, 1)
      | .error e => .error e
    | _ => .ok (st, nextId, 0)

/-- The channel loop of `_reconcile_category` / `reconcile`, aborting on the
first failure. -/
def _reconcile_channels (serverId : Nat) (st : MemoryState) (nextId : Nat)
    (ts : List ChannelTemplate) (categoryId : Option Nat) :
    Except String (MemoryState × Nat × Nat) :=
  match ts with
  | [] => .ok (st, nextId, 0)
  | t :: rest =>
    match _reconcile_channel serverId st nextId t categoryId with
    | .error e => .error e
    | .ok (st', n', c') =>
      match _reconcile_channels serverId st' n' rest categoryId with
      | .error e => .error e
      | .ok (st'', n'', c'') => .ok (st'', n'', c' + c'')

/-- `Reconciler._reconcile_category`: ensure the category (reuse on name hit,
otherwise `create_category` and `save_category`), then reconcile its channel
templates against the resulting category id.  Returns
`(state, nextId, category-creation calls, channel-creation calls)`. -/
def _reconcile_category (serverId : Nat) (st : MemoryState) (nextId : Nat)
    (t : CategoryTemplate) :
    Except String (MemoryState × Nat × Nat × Nat) :=
  match get_category_by_name st t.name serverId with
  | some cat =>
    match _reconcile_channels serverId st nextId t.channels (some cat.id) with
    | .error e => .error e
    | .ok (st', n', cc) => .ok (st', n', 0, cc)
  | none =>
    let cat : Category :=
      { id := nextId, name := t.name, server_id := serverId, position := t.position.getD 0 }
    let st1 := st.save_category cat
    match _reconcile_channels serverId st1 (nextId + 1) t.channels (some cat.id) with
    | .error e => .error e
    | .ok (st', n', cc) => .ok (st', n', 1, cc)

/-- The category loop of `reconcile`, aborting on the first failure. -/
def _reconcile_categories (serverId : Nat) (st : MemoryState) (nextId : Nat)
    (ts : List CategoryTemplate) :
    Except String (MemoryState × Nat × Nat × Nat) :=
  match ts with
  | [] => .ok (st, nextId, 0, 0)
  | t :: rest =>
    match _reconcile_category serverId st nextId t with
    | .error e => .error e
    | .ok (st', n', cat', ch') =>
      match _reconcile_categories serverId st' n' rest with
      | .error e => .error e
      | .ok (st'', n'', cat'', ch'') => .ok (st'', n'', cat' + cat'', ch' + ch'')

/-- `Reconciler.reconcile`: resolve the template's patterns, reconcile every
category template (with its channels), then every uncategorized channel
template. -/
def reconcile (serverId : Nat) (t : ServerTemplate) (today : Nat)
    (st : MemoryState) (nextId : Nat) : Except String ReconcileResult :=
  match _reconcile_categories serverId st nextId (t.resolve_patterns today).categories with
  | .error e => .error e
  | .ok (st1, n1, catCalls, chCalls1) =>
    match _reconcile_channels serverId st1 n1
        (t.resolve_patterns today).uncategorized_channels none with
    | .error e => .error e
    | .ok (st2, n2, chCalls2) => .ok ⟨st2, n2, catCalls, chCalls1 + chCalls2⟩

/-! ## Discovery — src/discordia/discovery.py -/

/-- A channel-like object of the remote workspace, as Discovery reads it:
remote-reported kind, id, name, optional parent, position, optional topic. -/
structure RemoteChannel where
  id : Nat
  name : String
  isText : Bool
  parent_id : Option Nat
  position : Int
  topic : Option String
deriving Repr, DecidableEq

/-- The field mapping of `discover_channels`: a remote text channel becomes a
local `Channel`.  `category_id` is `int(parent_id) if parent_id else None`
(Python truthiness: a 0 parent becomes null) and an empty or missing topic
becomes null. -/
def remoteToChannel (serverId : Nat) (c : RemoteChannel) : Channel :=
  { id := c.id
    name := c.name
    server_id := serverId
    category_id :=
      match c.parent_id with
      | some p => if p != 0 then some p else none
      | none => none
    position := c.position
    topic :=
      match c.topic with
      | some t => if t != "" then some t else none
      | none => none }

/-- `DiscoveryEngine.discover_channels`: iterate the guild's channel-like
objects, skip non-text ones, map and save each text channel.  The whole loop
body sits in one `try`: the first failure is wrapped into a single
`DiscordAPIError` and aborts the batch; writes already applied remain (they
are part of the state threaded up to the failure point). -/
def discover_channels (serverId : Nat) (st : MemoryState) (chans : List RemoteChannel) :
    MemoryState × Except String (List Channel) :=
  match chans with
  | [] => (st, .ok [])
  | c :: rest =>
    if c.isText then
      match st.save_channel (remoteToChannel serverId c) with
      | .error e => (st, .error ("Channel discovery failed: " ++ e))
      | .ok st' =>
        match discover_channels serverId st' rest with
        | (st'', .ok l) => (st'', .ok (remoteToChannel serverId c :: l))
        | (st'', .error e) => (st'', .error e)
    else
      discover_channels serverId st rest

/-! ## Concrete cache used to witness and refute -/

/-- A demo user. -/
def demoUser : User := ⟨2, "alice", "0", false⟩

/-- A demo uncategorized channel of server 9. -/
def demoChannel : Channel := ⟨1, "general", none, 9, 0, none⟩

/-- Demo message, timestamp 100. -/
def demoMsg1 : Message := ⟨3, "hi", 2, 1, 100, none⟩

/-- Demo message, timestamp 50. -/
def demoMsg2 : Message := ⟨4, "yo", 2, 1, 50, none⟩

/-- Demo message, timestamp 150. -/
def demoMsg3 : Message := ⟨5, "hey", 2, 1, 150, none⟩

/-- A cache holding one channel, one user and three messages of channel 1. -/
def demoState : MemoryState :=
  ⟨[], [(1, demoChannel)], [(2, demoUser)], [(3, demoMsg1), (4, demoMsg2), (5, demoMsg3)]⟩

/-! ## Invariant predicates used by the reconciliation proofs -/

/-- All keys of an association list lie below `n`. -/
def keysBelow (d : List (Nat × α)) (n : Nat) : Prop :=
  ∀ p ∈ d, p.1 < n

/-- The allocator `n` is ahead of every cached category and channel id. -/
def MemoryState.fresh (s : MemoryState) (n : Nat) : Prop :=
  keysBelow s.categories n ∧ keysBelow s.channels n

instance (d : List (Nat × α)) (n : Nat) : Decidable (keysBelow d n) := by
  unfold keysBelow; infer_instance

instance (s : MemoryState) (n : Nat) : Decidable (s.fresh n) := by
  unfold MemoryState.fresh; infer_instance

/-- One cache state extends another: both the category dict and the channel
dict have only grown at the end (users and messages are never touched by the
reconciler). -/
def StateExt (s s' : MemoryState) : Prop :=
  (∃ tc, s'.categories = s.categories ++ tc) ∧ (∃ th, s'.channels = s.channels ++ th)

/-- A channel template is settled in a state: if it is a text template, its
name resolves in the registry (non-text templates are settled vacuously — the
reconciler never acts on them). -/
def chanReady (s : MemoryState) (sid : Nat) (t : ChannelTemplate) : Prop :=
  t.isText = true → ∃ c, get_channel_by_name s t.base.name sid = some c

/-- A category name resolves in the registry. -/
def catReady (s : MemoryState) (sid : Nat) (name : String) : Prop :=
  ∃ c, get_category_by_name s name sid = some c

/-! ## Helper lemmas on the message order -/

/-- A non-strict key comparison between messages with different keys is strict. -/
theorem msgLT_of_msgLE_of_key_ne {a b : Message} (hle : msgLE a b)
    (hne : msgKey a ≠ msgKey b) : msgLT a b := by
  unfold msgLE at hle
  unfold msgLT
  unfold msgKey at hne
  rw [ne_eq, Prod.mk.injEq, not_and_or] at hne
  rcases hne with h | h <;> omega

/-- Key distinctness is symmetric. -/
theorem msgKey_ne_symm : Symmetric (fun a b : Message => msgKey a ≠ msgKey b) :=
  fun _ _ h e => h e.symm

/-! ## Claim C1 — `get_messages` with a non-positive limit -/

/-- Claim C1 as frozen is false: with three messages stored for channel 1,
`get_messages(1, 0)` and `get_messages(1, -5)` return the full ascending
history, not the empty list (`ordered[-limit:] if limit > 0 else ordered`
falls back to the whole ordered list). -/
theorem C1_counterexample :
    demoState.get_messages 1 0 = [demoMsg2, demoMsg1, demoMsg3] ∧
    demoState.get_messages 1 0 ≠ [] ∧
    demoState.get_messages 1 (-5) ≠ [] := by
  decide

/-- Claim C1 (amended): for every channel and every `limit ≤ 0`,
`get_messages` returns all stored messages of that channel — a permutation of
the channel's full message list, sorted ascending by `(timestamp, id)` — not
the empty list. -/
theorem C1_amended (s : MemoryState) (channelId : Nat) (limit : Int)
    (h : limit ≤ 0) :
    (s.get_messages channelId limit).Perm (s.channel_messages channelId) ∧
    List.Sorted msgLE (s.get_messages channelId limit) := by
  have hnot : ¬ (0 < limit) := by omega
  unfold MemoryState.get_messages
  rw [if_neg hnot]
  exact ⟨List.perm_insertionSort msgLE _, List.sorted_insertionSort msgLE _⟩

/-- Witness for C1 (amended) at the demo cache with `limit = 0`. -/
theorem C1_amended_witness :
    (demoState.get_messages 1 0).Perm (demoState.channel_messages 1) ∧
    List.Sorted msgLE (demoState.get_messages 1 0) :=
  C1_amended demoState 1 0 (by decide)

/-! ## Claim C2 — referential integrity of `save_channel` / `save_message` -/

/-- Claim C2: a `save_channel` whose non-null `category_id` is absent from the
category table raises the consistency error, and a `save_message` whose author
is absent from the user table or whose channel is absent from the channel
table raises a consistency error.  The error is raised before the write, so
the cache state after the failed call is the state before it (the `Except`
only carries a new state on the `.ok` path). -/
theorem C2_referential_integrity (s : MemoryState) (c : Channel) (m : Message)
    (cid : Nat) (hcid : c.category_id = some cid)
    (hcat : dictHas s.categories cid = false)
    (hm : dictHas s.users m.author_id = false ∨ dictHas s.channels m.channel_id = false) :
    s.save_channel c =
      .error ("Category " ++ toString cid ++ " not found for channel " ++ toString c.id) ∧
    (∃ e, s.save_message m = .error e) := by
  constructor
  · unfold MemoryState.save_channel
    rw [hcid]
    simp [hcat]
  · by_cases hu : dictHas s.users m.author_id = false
    · exact ⟨"User " ++ toString m.author_id ++ " not found for message " ++ toString m.id,
        by unfold MemoryState.save_message; simp [hu]⟩
    · have hu' : dictHas s.users m.author_id = true := by
        revert hu; cases dictHas s.users m.author_id <;> simp
      have hc : dictHas s.channels m.channel_id = false := by
        rcases hm with h | h
        · rw [hu'] at h; cases h
        · exact h
      exact ⟨"Channel " ++ toString m.channel_id ++ " not found for message " ++ toString m.id,
        by unfold MemoryState.save_message; simp [hu', hc]⟩

/-- Witness for C2: against the demo cache, saving a channel under missing
category 999 and a message with missing author 77 both fail. -/
theorem C2_witness :
    MemoryState.save_channel demoState ⟨7, "sidebar", some 999, 9, 0, none⟩ =
      .error ("Category " ++ toString 999 ++ " not found for channel " ++ toString 7) ∧
    (∃ e, MemoryState.save_message demoState ⟨8, "x", 77, 1, 5, none⟩ = .error e) :=
  C2_referential_integrity demoState ⟨7, "sidebar", some 999, 9, 0, none⟩
    ⟨8, "x", 77, 1, 5, none⟩ 999 rfl (by decide) (Or.inl (by decide))

/-! ## Claim C4 — ordering and truncation of the history query -/

/-- Claim C4: for a positive limit `k`, `get_messages` returns the
`min k N` messages of the channel with the largest `(timestamp, id)` keys
(every stored message left out is strictly below every returned one), sorted
ascending; for `k ≥ N` it returns all `N` stored messages. -/
theorem C4_history_query (s : MemoryState) (channelId : Nat) (k : Int)
    (hk : 0 < k)
    (hdist : (s.channel_messages channelId).Pairwise (fun a b => msgKey a ≠ msgKey b)) :
    (s.get_messages channelId k).length =
        min k.toNat (s.channel_messages channelId).length ∧
    List.Sorted msgLE (s.get_messages channelId k) ∧
    (∀ m ∈ s.get_messages channelId k, m ∈ s.channel_messages channelId) ∧
    (∀ m ∈ s.channel_messages channelId, m ∉ s.get_messages channelId k →
      ∀ m' ∈ s.get_messages channelId k, msgLT m m') ∧
    (k.toNat ≥ (s.channel_messages channelId).length →
      (s.get_messages channelId k).Perm (s.channel_messages channelId)) := by
  have hperm : (List.insertionSort msgLE (s.channel_messages channelId)).Perm
      (s.channel_messages channelId) := List.perm_insertionSort msgLE _
  have hlen : (List.insertionSort msgLE (s.channel_messages channelId)).length =
      (s.channel_messages channelId).length := hperm.length_eq
  have hsorted : List.Sorted msgLE (List.insertionSort msgLE (s.channel_messages channelId)) :=
    List.sorted_insertionSort msgLE _
  have hres : s.get_messages channelId k =
      (List.insertionSort msgLE (s.channel_messages channelId)).drop
        ((List.insertionSort msgLE (s.channel_messages channelId)).length - k.toNat) := by
    unfold MemoryState.get_messages
    rw [if_pos hk]
  have hsplit : (List.insertionSort msgLE (s.channel_messages channelId)).take
        ((List.insertionSort msgLE (s.channel_messages channelId)).length - k.toNat) ++
      (List.insertionSort msgLE (s.channel_messages channelId)).drop
        ((List.insertionSort msgLE (s.channel_messages channelId)).length - k.toNat) =
      List.insertionSort msgLE (s.channel_messages channelId) :=
    List.take_append_drop _ _
  have hpw : List.Pairwise msgLE
      ((List.insertionSort msgLE (s.channel_messages channelId)).take
        ((List.insertionSort msgLE (s.channel_messages channelId)).length - k.toNat) ++
       (List.insertionSort msgLE (s.channel_messages channelId)).drop
        ((List.insertionSort msgLE (s.channel_messages channelId)).length - k.toNat)) := by
    rw [hsplit]; exact hsorted
  have hmemres : ∀ m ∈ s.get_messages channelId k, m ∈ s.channel_messages channelId := by
    intro m hm
    rw [hres] at hm
    exact hperm.mem_iff.mp (List.mem_of_mem_drop hm)
  refine ⟨?_, ?_, hmemres, ?_, ?_⟩
  · rw [hres, List.length_drop, hlen]
    omega
  · rw [hres]
    exact List.Pairwise.sublist (List.drop_sublist _ _) hsorted
  · intro m hmem hnotin m' hm'
    have hmsort : m ∈ List.insertionSort msgLE (s.channel_messages channelId) :=
      hperm.mem_iff.mpr hmem
    have hmu : m ∈ (List.insertionSort msgLE (s.channel_messages channelId)).take
        ((List.insertionSort msgLE (s.channel_messages channelId)).length - k.toNat) := by
      rw [hres] at hnotin
      rcases (List.mem_append.mp (hsplit ▸ hmsort)) with h | h
      · exact h
      · exact absurd h hnotin
    have hle : msgLE m m' := by
      have := (List.pairwise_append.mp hpw).2.2
      rw [hres] at hm'
      exact this m hmu m' hm'
    have hm'mem : m' ∈ s.channel_messages channelId := hmemres m' hm'
    have hne : m ≠ m' := by
      intro h
      rw [h] at hnotin
      exact hnotin hm'
    exact msgLT_of_msgLE_of_key_ne hle (hdist.forall msgKey_ne_symm hmem hm'mem hne)
  · intro hge
    rw [hres]
    have : (List.insertionSort msgLE (s.channel_messages channelId)).length - k.toNat = 0 := by
      omega
    rw [this, List.drop_zero]
    exact hperm

/-- Witness for C4 at the demo cache with `k = 2` of `N = 3` messages. -/
theorem C4_witness :
    (demoState.get_messages 1 2).length =
        min (Int.toNat 2) (demoState.channel_messages 1).length ∧
    List.Sorted msgLE (demoState.get_messages 1 2) ∧
    (∀ m ∈ demoState.get_messages 1 2, m ∈ demoState.channel_messages 1) ∧
    (∀ m ∈ demoState.channel_messages 1, m ∉ demoState.get_messages 1 2 →
      ∀ m' ∈ demoState.get_messages 1 2, msgLT m m') ∧
    ((2 : Int).toNat ≥ (demoState.channel_messages 1).length →
      (demoState.get_messages 1 2).Perm (demoState.channel_messages 1)) := by
  exact C4_history_query demoState 1 2 (by decide) (by decide)

/-! ## Claim C6 — `resolve_patterns` -/

/-- Folding list concatenation over a list equals the initial list followed by
the flattened images. -/
theorem foldl_append_flatten {α β : Type} (g : α → List β) (l : List α) (init : List β) :
    l.foldl (fun acc p => acc ++ g p) init = init ++ (l.map g).flatten := by
  induction l generalizing init with
  | nil => simp
  | cons x xs ih =>
    rw [List.foldl_cons, ih, List.map_cons, List.flatten_cons, List.append_assoc]

/-- Claim C6: `resolve_patterns` returns a template whose uncategorized
channels are the static ones followed by every pattern's `generate()` output
in pattern order, whose categories are untouched and whose pattern list is
empty; resolving the result again (at any instant) returns it unchanged. -/
theorem C6_resolve_patterns (t : ServerTemplate) (today today' : Nat) :
    (t.resolve_patterns today).uncategorized_channels =
      t.uncategorized_channels ++ (t.patterns.map (fun p => p.generate today)).flatten ∧
    (t.resolve_patterns today).categories = t.categories ∧
    (t.resolve_patterns today).patterns = [] ∧
    (t.resolve_patterns today).resolve_patterns today' = t.resolve_patterns today := by
  refine ⟨?_, rfl, rfl, rfl⟩
  unfold ServerTemplate.resolve_patterns
  exact foldl_append_flatten _ _ _

/-! ## Claims C7/C8 — the date-window patterns -/

/-- The day loop enumerates exactly the ordinals of `[a, b]` in ascending
order. -/
theorem genDays_eq_range (a b : Nat) :
    genDays a b = (List.range (b + 1 - a)).map (fun i => a + i) := by
  have H : ∀ n a, b + 1 - a = n → genDays a b = (List.range n).map (fun i => a + i) := by
    intro n
    induction n with
    | zero =>
      intro a h
      rw [genDays, if_neg (by omega)]
      simp
    | succ k ih =>
      intro a h
      rw [genDays, if_pos (by omega), ih (a + 1) (by omega), List.range_succ_eq_map]
      rw [List.map_cons, List.map_map]
      refine congrArg₂ _ (by omega) ?_
      refine List.map_congr_left ?_
      intro i _
      simp
      omega
  exact H _ a rfl

/-- Claim C7: a daily-log pattern generated at a fixed `today` yields exactly
`days_behind + days_ahead + 1` text-channel templates, the i-th one named by
the ISO date of day `today - days_behind + i` — one per calendar day of the
inclusive window, oldest first. -/
theorem C7_daily_log_window (days_ahead days_behind today : Nat) (topic : Option String)
    (hda : days_ahead ≤ 30) (hdb : days_behind ≤ 90) (htoday : days_behind ≤ today) :
    (ChannelPattern.daily days_ahead days_behind topic).generate today =
      (List.range (days_behind + days_ahead + 1)).map
        (fun i => .text ⟨dateIso (today - days_behind + i), topic, none⟩ 0 false) ∧
    ((ChannelPattern.daily days_ahead days_behind topic).generate today).length =
      days_behind + days_ahead + 1 := by
  have hcount : today + days_ahead + 1 - (today - days_behind) =
      days_behind + days_ahead + 1 := by omega
  have hmain : (ChannelPattern.daily days_ahead days_behind topic).generate today =
      (List.range (days_behind + days_ahead + 1)).map
        (fun i => .text ⟨dateIso (today - days_behind + i), topic, none⟩ 0 false) := by
    show (genDays (today - days_behind) (today + days_ahead)).map _ = _
    rw [genDays_eq_range, hcount, List.map_map]
    rfl
  exact ⟨hmain, by rw [hmain]; simp⟩

/-- Witness for C7: `days_ahead = 1`, `days_behind = 1`, today = 2025-10-12
(ordinal 739536): exactly 3 entries — yesterday, today, tomorrow. -/
theorem C7_witness :
    (ChannelPattern.daily 1 1 (some "Daily conversation log")).generate 739536 =
      (List.range (1 + 1 + 1)).map
        (fun i => .text ⟨dateIso (739536 - 1 + i), some "Daily conversation log", none⟩ 0 false) ∧
    ((ChannelPattern.daily 1 1 (some "Daily conversation log")).generate 739536).length =
      1 + 1 + 1 :=
  C7_daily_log_window 1 1 739536 (some "Daily conversation log")
    (by decide) (by decide) (by decide)

/-- Every `_isoweek1monday` result is a Monday ordinal (≡ 1 mod 7). -/
theorem isoweek1monday_mod (y : Nat) : isoweek1monday y % 7 = 1 := by
  unfold isoweek1monday jan1Ordinal daysBeforeYear
  split <;> omega

/-- The ISO weekday reported by `isocalendar` is determined by the ordinal
alone: day `n` has ISO weekday `(n - 1) % 7 + 1` (ordinal 1 is a Monday). -/
theorem isocalendar_day (n : Nat) (hn : 1 ≤ n) :
    (isocalendar n).2.2 = (n - 1) % 7 + 1 := by
  unfold isocalendar
  have h1 := isoweek1monday_mod (ord2ymd n).1
  have h2 := isoweek1monday_mod ((ord2ymd n).1 - 1)
  have e1 := Int.fmod_eq_emod ((n : Int) - (isoweek1monday (ord2ymd n).1))
    (b := 7) (by norm_num)
  have e2 := Int.fmod_eq_emod ((n : Int) - (isoweek1monday ((ord2ymd n).1 - 1)))
    (b := 7) (by norm_num)
  split_ifs
  · dsimp only
    rw [e2]
    omega
  · dsimp only
    rw [e1]
    omega
  · dsimp only
    rw [e1]
    omega

/-- Claim C8: the week-day pattern's window arithmetic is
`days_behind = 7*weeks_behind + weekday(today)` and
`days_ahead = 7*weeks_ahead + (6 - weekday(today))`; the window therefore
spans whole ISO weeks — its first day is a Monday (ISO weekday 1), namely the
Monday of today's week moved back `weeks_behind` weeks, and its last day is a
Sunday (ISO weekday 7), the Sunday of today's week moved forward
`weeks_ahead` weeks — with one channel per day named
`(ISO week, ISO weekday)`, both zero-padded. -/
theorem C8_weekday_window (weeks_ahead weeks_behind today : Nat) (topic : Option String)
    (hwa : weeks_ahead ≤ 4) (hwb : weeks_behind ≤ 8)
    (htoday : weeks_behind * 7 + weekdayOf today < today) :
    (ChannelPattern.weekday weeks_ahead weeks_behind topic).generate today =
      (List.range ((weeks_behind + weeks_ahead + 1) * 7)).map
        (fun i =>
          .text ⟨pad2 (isocalendar (today - (weeks_behind * 7 + weekdayOf today) + i)).2.1 ++
              "-" ++
              pad2 (isocalendar (today - (weeks_behind * 7 + weekdayOf today) + i)).2.2,
            topic, none⟩ 0 false) ∧
    ((ChannelPattern.weekday weeks_ahead weeks_behind topic).generate today).length =
      (weeks_behind + weeks_ahead + 1) * 7 ∧
    (isocalendar (today - (weeks_behind * 7 + weekdayOf today))).2.2 = 1 ∧
    (isocalendar (today + (weeks_ahead * 7 + (6 - weekdayOf today)))).2.2 = 7 ∧
    today - (weeks_behind * 7 + weekdayOf today) =
      (today - weekdayOf today) - weeks_behind * 7 ∧
    today + (weeks_ahead * 7 + (6 - weekdayOf today)) =
      (today - weekdayOf today) + weeks_ahead * 7 + 6 := by
  have hw : weekdayOf today = (today - 1) % 7 := rfl
  have hwlt : weekdayOf today < 7 := by rw [hw]; omega
  have hcount : today + (weeks_ahead * 7 + (6 - weekdayOf today)) + 1 -
      (today - (weeks_behind * 7 + weekdayOf today)) =
      (weeks_behind + weeks_ahead + 1) * 7 := by omega
  have hmain : (ChannelPattern.weekday weeks_ahead weeks_behind topic).generate today =
      (List.range ((weeks_behind + weeks_ahead + 1) * 7)).map
        (fun i =>
          .text ⟨pad2 (isocalendar (today - (weeks_behind * 7 + weekdayOf today) + i)).2.1 ++
              "-" ++
              pad2 (isocalendar (today - (weeks_behind * 7 + weekdayOf today) + i)).2.2,
            topic, none⟩ 0 false) := by
    show (genDays (today - (weeks_behind * 7 + weekdayOf today))
        (today + (weeks_ahead * 7 + (6 - weekdayOf today)))).map _ = _
    rw [genDays_eq_range, hcount, List.map_map]
    rfl
  refine ⟨hmain, by rw [hmain]; simp, ?_, ?_, by omega, by omega⟩
  · rw [isocalendar_day _ (by omega)]
    omega
  · rw [isocalendar_day _ (by omega)]
    omega

/-- Witness for C8 at today = 2025-10-12 (ordinal 739536, a Sunday),
`weeks_ahead = 0`, `weeks_behind = 1`. -/
theorem C8_witness :
    (ChannelPattern.weekday 0 1 (some "Weekly log channel")).generate 739536 =
      (List.range ((1 + 0 + 1) * 7)).map
        (fun i =>
          .text ⟨pad2 (isocalendar (739536 - (1 * 7 + weekdayOf 739536) + i)).2.1 ++
              "-" ++
              pad2 (isocalendar (739536 - (1 * 7 + weekdayOf 739536) + i)).2.2,
            some "Weekly log channel", none⟩ 0 false) ∧
    ((ChannelPattern.weekday 0 1 (some "Weekly log channel")).generate 739536).length =
      (1 + 0 + 1) * 7 ∧
    (isocalendar (739536 - (1 * 7 + weekdayOf 739536))).2.2 = 1 ∧
    (isocalendar (739536 + (0 * 7 + (6 - weekdayOf 739536)))).2.2 = 7 ∧
    739536 - (1 * 7 + weekdayOf 739536) = (739536 - weekdayOf 739536) - 1 * 7 ∧
    739536 + (0 * 7 + (6 - weekdayOf 739536)) = (739536 - weekdayOf 739536) + 0 * 7 + 6 :=
  C8_weekday_window 0 1 739536 (some "Weekly log channel")
    (by decide) (by decide) (by decide)

/-! ## Claims C9/C10 — frame behavior of `_reconcile_channel` -/

/-- Claim C9: a non-text channel template whose name is not in the registry is
silently skipped by the reconciler — no remote creation call, no cache write,
no error. -/
theorem C9_non_text_skipped (serverId : Nat) (st : MemoryState) (nextId : Nat)
    (t : ChannelTemplate) (categoryId : Option Nat)
    (hnt : t.isText = false)
    (hmiss : get_channel_by_name st t.base.name serverId = none) :
    _reconcile_channel serverId st nextId t categoryId = .ok (st, nextId, 0) := by
  unfold _reconcile_channel
  rw [hmiss]
  cases t with
  | text b sm nf => simp [ChannelTemplate.isText] at hnt
  | voice b br ul => rfl
  | forum b d => rfl
  | announcement b => rfl

/-- Witness for C9: a missing voice-channel template against the demo cache. -/
theorem C9_witness :
    _reconcile_channel 9 demoState 50 (.voice ⟨"standup-vc", none, none⟩ 64000 0) none =
      .ok (demoState, 50, 0) :=
  C9_non_text_skipped 9 demoState 50 (.voice ⟨"standup-vc", none, none⟩ 64000 0) none
    (by decide) (by decide)

/-- Claim C10: when a channel with the template's name already exists in the
cache for the server, `_reconcile_channel` is a no-op for every desired
category id: no remote call, no cache write, no error — in particular the
cached channel keeps its stored `category_id`, because
`get_channel_by_name` matches on `(name, server_id)` only. -/
theorem C10_hit_is_noop (serverId : Nat) (st : MemoryState) (nextId : Nat)
    (t : ChannelTemplate) (c : Channel)
    (hhit : get_channel_by_name st t.base.name serverId = some c) :
    ∀ categoryId : Option Nat,
      _reconcile_channel serverId st nextId t categoryId = .ok (st, nextId, 0) := by
  intro categoryId
  unfold _reconcile_channel
  rw [hhit]

/-- Witness for C10: channel `log` is cached under category 42; reconciling a
text template `log` aimed at category 77 performs no call and no write. -/
theorem C10_witness :
    _reconcile_channel 9
      ⟨[(42, ⟨42, "Old", 9, 0⟩)], [(6, ⟨6, "log", some 42, 9, 0, none⟩)], [], []⟩
      50 (.text ⟨"log", none, none⟩ 0 false) (some 77) =
      .ok (⟨[(42, ⟨42, "Old", 9, 0⟩)], [(6, ⟨6, "log", some 42, 9, 0, none⟩)], [], []⟩, 50, 0) :=
  C10_hit_is_noop 9
    ⟨[(42, ⟨42, "Old", 9, 0⟩)], [(6, ⟨6, "log", some 42, 9, 0, none⟩)], [], []⟩
    50 (.text ⟨"log", none, none⟩ 0 false) ⟨6, "log", some 42, 9, 0, none⟩
    (by decide) (some 77)

/-! ## Claim C5 — failure handling in Discovery -/

/-- Claim C5 as frozen is false: when saving the first remote text channel
fails (its parent category 999 is not cached), `discover_channels` does not
skip it and continue — it aborts the whole batch with the wrapped error, and
the second, perfectly valid channel is never saved. -/
theorem C5_counterexample :
    discover_channels 1 MemoryState.empty
        [⟨7, "bad", true, some 999, 0, none⟩, ⟨8, "good", true, none, 0, some "t"⟩] =
      (MemoryState.empty,
       .error "Channel discovery failed: Category 999 not found for channel 7") ∧
    dictGet (discover_channels 1 MemoryState.empty
        [⟨7, "bad", true, some 999, 0, none⟩, ⟨8, "good", true, none, 0, some "t"⟩]).1.channels
        8 = none := by
  decide

/-- Claim C5 (amended): a per-item failure while Discovery enumerates the
remote channels aborts the whole batch — the error is wrapped into the single
`DiscordAPIError` and re-raised, the items after the failing one are never
processed, and the cache keeps exactly the writes applied before the failure.
Like the Reconciler, Discovery stops at the first failure; the difference is
only in the wrapping error type. -/
theorem C5_amended (serverId : Nat) (st : MemoryState) (c : RemoteChannel)
    (rest : List RemoteChannel) (e : String)
    (htext : c.isText = true)
    (hfail : st.save_channel (remoteToChannel serverId c) = .error e) :
    discover_channels serverId st (c :: rest) =
      (st, .error ("Channel discovery failed: " ++ e)) := by
  unfold discover_channels
  rw [if_pos htext, hfail]

/-- Witness for C5 (amended): the failing first channel of the
counterexample guild, with a nonempty `rest` that is left unprocessed. -/
theorem C5_amended_witness :
    discover_channels 1 MemoryState.empty
        [⟨7, "bad", true, some 999, 0, none⟩, ⟨8, "good", true, none, 0, some "t"⟩] =
      (MemoryState.empty,
       .error ("Channel discovery failed: " ++ "Category 999 not found for channel 7")) :=
  C5_amended 1 MemoryState.empty ⟨7, "bad", true, some 999, 0, none⟩
    [⟨8, "good", true, none, 0, some "t"⟩] "Category 999 not found for channel 7"
    (by decide) (by decide)

/-! ## Claim C3 — reconciliation idempotence

The key invariant: the remote allocator hands out ids strictly above every
cached category/channel id (Discord snowflakes are globally fresh), so every
save performed by a run appends a new dict entry and never displaces an entry
an earlier name-lookup could have matched. -/

/-- Writing a fresh key into a dict appends it. -/
theorem dictSet_fresh {α : Type} (d : List (Nat × α)) (k : Nat) (v : α)
    (h : keysBelow d k) : dictSet d k v = d ++ [(k, v)] := by
  unfold dictSet
  rw [if_neg]
  intro hc
  rw [List.any_eq_true] at hc
  obtain ⟨p, hp, he⟩ := hc
  have := h p hp
  simp only [beq_iff_eq] at he
  omega

/-- `find?` keeps its verdict when the list is extended on the right. -/
theorem find?_append_some {α : Type} {l l' : List α} {f : α → Bool} {x : α}
    (h : l.find? f = some x) : (l ++ l').find? f = some x := by
  rw [List.find?_append, h]
  rfl

/-- On a left miss, `find?` over an appended list searches the extension. -/
theorem find?_append_none {α : Type} {l l' : List α} {f : α → Bool}
    (h : l.find? f = none) : (l ++ l').find? f = l'.find? f := by
  rw [List.find?_append, h]
  rfl

theorem StateExt.rfl (s : MemoryState) : StateExt s s :=
  ⟨⟨[], by simp⟩, ⟨[], by simp⟩⟩

theorem StateExt.trans {s s' s'' : MemoryState}
    (h1 : StateExt s s') (h2 : StateExt s' s'') : StateExt s s'' := by
  obtain ⟨⟨tc1, e1⟩, ⟨th1, f1⟩⟩ := h1
  obtain ⟨⟨tc2, e2⟩, ⟨th2, f2⟩⟩ := h2
  exact ⟨⟨tc1 ++ tc2, by rw [e2, e1, List.append_assoc]⟩,
         ⟨th1 ++ th2, by rw [f2, f1, List.append_assoc]⟩⟩

/-- A channel name-lookup hit survives any state extension. -/
theorem get_channel_by_name_mono {s s' : MemoryState} {name : String} {sid : Nat}
    {c : Channel} (hext : StateExt s s')
    (h : get_channel_by_name s name sid = some c) :
    get_channel_by_name s' name sid = some c := by
  obtain ⟨_, ⟨th, hth⟩⟩ := hext
  unfold get_channel_by_name at h ⊢
  rw [hth, List.map_append]
  exact find?_append_some h

/-- A category name-lookup hit survives any state extension. -/
theorem get_category_by_name_mono {s s' : MemoryState} {name : String} {sid : Nat}
    {c : Category} (hext : StateExt s s')
    (h : get_category_by_name s name sid = some c) :
    get_category_by_name s' name sid = some c := by
  obtain ⟨⟨tc, htc⟩, _⟩ := hext
  unfold get_category_by_name at h ⊢
  rw [htc, List.map_append]
  exact find?_append_some h

theorem chanReady_mono {s s' : MemoryState} {sid : Nat} {t : ChannelTemplate}
    (hext : StateExt s s') (h : chanReady s sid t) : chanReady s' sid t := by
  intro ht
  obtain ⟨c, hc⟩ := h ht
  exact ⟨c, get_channel_by_name_mono hext hc⟩

theorem catReady_mono {s s' : MemoryState} {sid : Nat} {name : String}
    (hext : StateExt s s') (h : catReady s sid name) : catReady s' sid name := by
  obtain ⟨c, hc⟩ := h
  exact ⟨c, get_category_by_name_mono hext hc⟩

/-- A successful `save_channel` only rewrites the channel dict. -/
theorem save_channel_ok_eq {s : MemoryState} {c : Channel} {s' : MemoryState}
    (h : s.save_channel c = .ok s') :
    s' = { s with channels := dictSet s.channels c.id c } := by
  unfold MemoryState.save_channel at h
  cases hc : c.category_id with
  | none =>
    rw [hc] at h
    dsimp only at h
    simp only [Except.ok.injEq] at h
    exact h.symm
  | some cid =>
    rw [hc] at h
    dsimp only at h
    by_cases hd : (!dictHas s.categories cid) = true
    · rw [if_pos hd] at h
      exact Except.noConfusion h
    · rw [if_neg hd] at h
      simp only [Except.ok.injEq] at h
      exact h.symm

/-- Effect of one `_reconcile_channel` step under a fresh allocator: the state
only grows, freshness is maintained, and afterwards the template is settled. -/
theorem _reconcile_channel_ok {sid : Nat} {st : MemoryState} {n : Nat}
    {t : ChannelTemplate} {cid : Option Nat} {st' : MemoryState} {n' k : Nat}
    (hf : st.fresh n)
    (h : _reconcile_channel sid st n t cid = .ok (st', n', k)) :
    StateExt st st' ∧ st'.fresh n' ∧ n ≤ n' ∧ chanReady st' sid t := by
  unfold _reconcile_channel at h
  cases hlook : get_channel_by_name st t.base.name sid with
  | some c =>
    rw [hlook] at h
    simp only [Except.ok.injEq, Prod.mk.injEq] at h
    obtain ⟨rfl, rfl, rfl⟩ := h
    exact ⟨StateExt.rfl st, hf, Nat.le_refl n, fun _ => ⟨c, hlook⟩⟩
  | none =>
    rw [hlook] at h
    dsimp only at h
    cases t with
    | text base sm nf =>
      dsimp only at h
      dsimp only [ChannelTemplate.base] at hlook
      cases hsave : st.save_channel
          { id := n, name := base.name, category_id := cid,
            server_id := sid, position := base.position.getD 0, topic := base.topic } with
      | error e =>
        rw [hsave] at h
        exact Except.noConfusion h
      | ok st2 =>
        rw [hsave] at h
        dsimp only at h
        simp only [Except.ok.injEq, Prod.mk.injEq] at h
        obtain ⟨rfl, rfl, rfl⟩ := h
        have heq := save_channel_ok_eq hsave
        have happ : st2.channels = st.channels ++
            [(n, { id := n, name := base.name, category_id := cid,
                   server_id := sid, position := base.position.getD 0,
                   topic := base.topic })] := by
          rw [heq]
          exact dictSet_fresh _ _ _ hf.2
        have hcat : st2.categories = st.categories := by rw [heq]
        refine ⟨⟨⟨[], by rw [hcat, List.append_nil]⟩, ⟨_, happ⟩⟩, ⟨?_, ?_⟩, by omega, ?_⟩
        · rw [hcat]
          intro p hp
          have := hf.1 p hp
          omega
        · rw [happ]
          intro p hp
          rcases List.mem_append.mp hp with hold | hnew
          · have := hf.2 p hold
            omega
          · rw [List.mem_singleton] at hnew
            rw [hnew]
            omega
        · intro _
          refine ⟨{ id := n, name := base.name, category_id := cid,
                    server_id := sid, position := base.position.getD 0,
                    topic := base.topic }, ?_⟩
          show get_channel_by_name st2 base.name sid = _
          unfold get_channel_by_name at hlook ⊢
          rw [happ, List.map_append, find?_append_none hlook]
          simp
    | voice base br ul =>
      dsimp only at h
      simp only [Except.ok.injEq, Prod.mk.injEq] at h
      obtain ⟨rfl, rfl, rfl⟩ := h
      exact ⟨StateExt.rfl st, hf, Nat.le_refl n,
        fun ht => by simp [ChannelTemplate.isText] at ht⟩
    | forum base d =>
      dsimp only at h
      simp only [Except.ok.injEq, Prod.mk.injEq] at h
      obtain ⟨rfl, rfl, rfl⟩ := h
      exact ⟨StateExt.rfl st, hf, Nat.le_refl n,
        fun ht => by simp [ChannelTemplate.isText] at ht⟩
    | announcement base =>
      dsimp only at h
      simp only [Except.ok.injEq, Prod.mk.injEq] at h
      obtain ⟨rfl, rfl, rfl⟩ := h
      exact ⟨StateExt.rfl st, hf, Nat.le_refl n,
        fun ht => by simp [ChannelTemplate.isText] at ht⟩

/-- Effect of the channel loop: state growth, freshness, and every processed
template settled at the end. -/
theorem _reconcile_channels_ok {sid : Nat} :
    ∀ (ts : List ChannelTemplate) {st : MemoryState} {n : Nat}
      {cid : Option Nat} {st' : MemoryState} {n' k : Nat},
      st.fresh n →
      _reconcile_channels sid st n ts cid = .ok (st', n', k) →
      StateExt st st' ∧ st'.fresh n' ∧ n ≤ n' ∧ ∀ t ∈ ts, chanReady st' sid t := by
  intro ts
  induction ts with
  | nil =>
    intro st n cid st' n' k hf h
    unfold _reconcile_channels at h
    simp only [Except.ok.injEq, Prod.mk.injEq] at h
    obtain ⟨rfl, rfl, rfl⟩ := h
    exact ⟨StateExt.rfl st, hf, Nat.le_refl n, by simp⟩
  | cons t rest ih =>
    intro st n cid st' n' k hf h
    unfold _reconcile_channels at h
    cases h1 : _reconcile_channel sid st n t cid with
    | error e =>
      rw [h1] at h
      exact Except.noConfusion h
    | ok res1 =>
      obtain ⟨st1, n1, k1⟩ := res1
      rw [h1] at h
      dsimp only at h
      cases h2 : _reconcile_channels sid st1 n1 rest cid with
      | error e =>
        rw [h2] at h
        exact Except.noConfusion h
      | ok res2 =>
        obtain ⟨st2, n2, k2⟩ := res2
        rw [h2] at h
        dsimp only at h
        simp only [Except.ok.injEq, Prod.mk.injEq] at h
        obtain ⟨rfl, rfl, rfl⟩ := h
        obtain ⟨hext1, hf1, hle1, hready1⟩ := _reconcile_channel_ok hf h1
        obtain ⟨hext2, hf2, hle2, hready2⟩ := ih hf1 h2
        refine ⟨hext1.trans hext2, hf2, by omega, ?_⟩
        intro u hu
        rcases List.mem_cons.mp hu with rfl | hmem
        · exact chanReady_mono hext2 hready1
        · exact hready2 u hmem

/-- Effect of `_reconcile_category` under a fresh allocator: the state grows,
freshness is maintained, and afterwards the category name resolves and each of
its channel templates is settled. -/
theorem _reconcile_category_ok {sid : Nat} {st : MemoryState} {n : Nat}
    {ct : CategoryTemplate} {st' : MemoryState} {n' kc kh : Nat}
    (hf : st.fresh n)
    (h : _reconcile_category sid st n ct = .ok (st', n', kc, kh)) :
    StateExt st st' ∧ st'.fresh n' ∧ n ≤ n' ∧ catReady st' sid ct.name ∧
    ∀ t ∈ ct.channels, chanReady st' sid t := by
  unfold _reconcile_category at h
  cases hlook : get_category_by_name st ct.name sid with
  | some cat =>
    rw [hlook] at h
    dsimp only at h
    cases h2 : _reconcile_channels sid st n ct.channels (some cat.id) with
    | error e =>
      rw [h2] at h
      exact Except.noConfusion h
    | ok res =>
      obtain ⟨st2, n2, k2⟩ := res
      rw [h2] at h
      dsimp only at h
      simp only [Except.ok.injEq, Prod.mk.injEq] at h
      obtain ⟨rfl, rfl, rfl, rfl⟩ := h
      obtain ⟨hext, hf2, hle, hready⟩ := _reconcile_channels_ok ct.channels hf h2
      exact ⟨hext, hf2, hle, catReady_mono hext ⟨cat, hlook⟩, hready⟩
  | none =>
    rw [hlook] at h
    dsimp only at h
    have happ : (st.save_category
        { id := n, name := ct.name, server_id := sid,
          position := ct.position.getD 0 }).categories =
        st.categories ++
          [(n, { id := n, name := ct.name, server_id := sid,
                 position := ct.position.getD 0 })] := by
      show dictSet st.categories _ _ = _
      exact dictSet_fresh _ _ _ hf.1
    have hch : (st.save_category
        { id := n, name := ct.name, server_id := sid,
          position := ct.position.getD 0 }).channels = st.channels := rfl
    have hext1 : StateExt st (st.save_category
        { id := n, name := ct.name, server_id := sid,
          position := ct.position.getD 0 }) :=
      ⟨⟨_, happ⟩, ⟨[], by rw [hch, List.append_nil]⟩⟩
    have hf1 : (st.save_category
        { id := n, name := ct.name, server_id := sid,
          position := ct.position.getD 0 }).fresh (n + 1) := by
      constructor
      · rw [happ]
        intro p hp
        rcases List.mem_append.mp hp with hold | hnew
        · have := hf.1 p hold
          omega
        · rw [List.mem_singleton] at hnew
          rw [hnew]
          omega
      · rw [hch]
        intro p hp
        have := hf.2 p hp
        omega
    have hcr1 : catReady (st.save_category
        { id := n, name := ct.name, server_id := sid,
          position := ct.position.getD 0 }) sid ct.name := by
      refine ⟨{ id := n, name := ct.name, server_id := sid,
                position := ct.position.getD 0 }, ?_⟩
      unfold get_category_by_name at hlook ⊢
      rw [happ, List.map_append, find?_append_none hlook]
      simp
    cases h2 : _reconcile_channels sid
        (st.save_category
          { id := n, name := ct.name, server_id := sid,
            position := ct.position.getD 0 }) (n + 1) ct.channels (some n) with
    | error e =>
      rw [h2] at h
      exact Except.noConfusion h
    | ok res =>
      obtain ⟨st2, n2, k2⟩ := res
      rw [h2] at h
      dsimp only at h
      simp only [Except.ok.injEq, Prod.mk.injEq] at h
      obtain ⟨rfl, rfl, rfl, rfl⟩ := h
      obtain ⟨hext2, hf2, hle2, hready2⟩ := _reconcile_channels_ok ct.channels hf1 h2
      exact ⟨hext1.trans hext2, hf2, by omega, catReady_mono hext2 hcr1, hready2⟩

/-- Effect of the category loop. -/
theorem _reconcile_categories_ok {sid : Nat} :
    ∀ (ts : List CategoryTemplate) {st : MemoryState} {n : Nat}
      {st' : MemoryState} {n' kc kh : Nat},
      st.fresh n →
      _reconcile_categories sid st n ts = .ok (st', n', kc, kh) →
      StateExt st st' ∧ st'.fresh n' ∧ n ≤ n' ∧
      ∀ ct ∈ ts, catReady st' sid ct.name ∧ ∀ t ∈ ct.channels, chanReady st' sid t := by
  intro ts
  induction ts with
  | nil =>
    intro st n st' n' kc kh hf h
    unfold _reconcile_categories at h
    simp only [Except.ok.injEq, Prod.mk.injEq] at h
    obtain ⟨rfl, rfl, rfl, rfl⟩ := h
    exact ⟨StateExt.rfl st, hf, Nat.le_refl n, by simp⟩
  | cons ct rest ih =>
    intro st n st' n' kc kh hf h
    unfold _reconcile_categories at h
    cases h1 : _reconcile_category sid st n ct with
    | error e =>
      rw [h1] at h
      exact Except.noConfusion h
    | ok res1 =>
      obtain ⟨st1, n1, kc1, kh1⟩ := res1
      rw [h1] at h
      dsimp only at h
      cases h2 : _reconcile_categories sid st1 n1 rest with
      | error e =>
        rw [h2] at h
        exact Except.noConfusion h
      | ok res2 =>
        obtain ⟨st2, n2, kc2, kh2⟩ := res2
        rw [h2] at h
        dsimp only at h
        simp only [Except.ok.injEq, Prod.mk.injEq] at h
        obtain ⟨rfl, rfl, rfl, rfl⟩ := h
        obtain ⟨hext1, hf1, hle1, hcr1, hready1⟩ := _reconcile_category_ok hf h1
        obtain ⟨hext2, hf2, hle2, hready2⟩ := ih hf1 h2
        refine ⟨hext1.trans hext2, hf2, by omega, ?_⟩
        intro u hu
        rcases List.mem_cons.mp hu with rfl | hmem
        · exact ⟨catReady_mono hext2 hcr1,
            fun t ht => chanReady_mono hext2 (hready1 t ht)⟩
        · exact hready2 u hmem

/-- After a successful first run from a fresh allocator, every resolved
category name and every resolved text-channel name resolves in the resulting
cache, and the resulting allocator is again fresh. -/
theorem reconcile_ok_ready {sid : Nat} {t : ServerTemplate} {today : Nat}
    {s0 : MemoryState} {n0 : Nat} {r : ReconcileResult}
    (hf : s0.fresh n0) (h : reconcile sid t today s0 n0 = .ok r) :
    r.state.fresh r.nextId ∧
    (∀ ct ∈ (t.resolve_patterns today).categories,
      catReady r.state sid ct.name ∧ ∀ u ∈ ct.channels, chanReady r.state sid u) ∧
    ∀ u ∈ (t.resolve_patterns today).uncategorized_channels, chanReady r.state sid u := by
  unfold reconcile at h
  cases h1 : _reconcile_categories sid s0 n0 (t.resolve_patterns today).categories with
  | error e =>
    rw [h1] at h
    exact Except.noConfusion h
  | ok res1 =>
    obtain ⟨st1, n1, kc1, kh1⟩ := res1
    rw [h1] at h
    dsimp only at h
    cases h2 : _reconcile_channels sid st1 n1
        (t.resolve_patterns today).uncategorized_channels none with
    | error e =>
      rw [h2] at h
      exact Except.noConfusion h
    | ok res2 =>
      obtain ⟨st2, n2, k2⟩ := res2
      rw [h2] at h
      dsimp only at h
      simp only [Except.ok.injEq] at h
      obtain ⟨hext1, hf1, hle1, hready1⟩ :=
        _reconcile_categories_ok (t.resolve_patterns today).categories hf h1
      obtain ⟨hext2, hf2, hle2, hready2⟩ :=
        _reconcile_channels_ok (t.resolve_patterns today).uncategorized_channels hf1 h2
      have hstate : r.state = st2 := by rw [← h]
      have hnext : r.nextId = n2 := by rw [← h]
      rw [hstate, hnext]
      refine ⟨hf2, ?_, hready2⟩
      intro ct hct
      exact ⟨catReady_mono hext2 (hready1 ct hct).1,
        fun u hu => chanReady_mono hext2 ((hready1 ct hct).2 u hu)⟩

/-- A second visit to a settled channel template is a strict no-op. -/
theorem _reconcile_channel_ready {sid : Nat} {st : MemoryState} {n : Nat}
    {t : ChannelTemplate} {cid : Option Nat} (h : chanReady st sid t) :
    _reconcile_channel sid st n t cid = .ok (st, n, 0) := by
  unfold _reconcile_channel
  cases hlook : get_channel_by_name st t.base.name sid with
  | some c => rfl
  | none =>
    cases t with
    | text base sm nf =>
      obtain ⟨c, hc⟩ := h rfl
      rw [hlook] at hc
      exact Option.noConfusion hc
    | voice base br ul => rfl
    | forum base d => rfl
    | announcement base => rfl

/-- A second visit to a list of settled channel templates is a strict no-op. -/
theorem _reconcile_channels_ready {sid : Nat} :
    ∀ (ts : List ChannelTemplate) {st : MemoryState} {n : Nat} {cid : Option Nat},
      (∀ t ∈ ts, chanReady st sid t) →
      _reconcile_channels sid st n ts cid = .ok (st, n, 0) := by
  intro ts
  induction ts with
  | nil => intro st n cid _; rfl
  | cons t rest ih =>
    intro st n cid h
    unfold _reconcile_channels
    rw [_reconcile_channel_ready (h t (List.mem_cons_self t rest))]
    dsimp only
    rw [ih (fun u hu => h u (List.mem_cons_of_mem t hu))]

/-- A second visit to a settled category template is a strict no-op. -/
theorem _reconcile_category_ready {sid : Nat} {st : MemoryState} {n : Nat}
    {ct : CategoryTemplate} (hc : catReady st sid ct.name)
    (h : ∀ t ∈ ct.channels, chanReady st sid t) :
    _reconcile_category sid st n ct = .ok (st, n, 0, 0) := by
  obtain ⟨cat, hcat⟩ := hc
  unfold _reconcile_category
  rw [hcat]
  dsimp only
  rw [_reconcile_channels_ready ct.channels h]

/-- A second visit to a list of settled category templates is a strict
no-op. -/
theorem _reconcile_categories_ready {sid : Nat} :
    ∀ (ts : List CategoryTemplate) {st : MemoryState} {n : Nat},
      (∀ ct ∈ ts, catReady st sid ct.name ∧ ∀ t ∈ ct.channels, chanReady st sid t) →
      _reconcile_categories sid st n ts = .ok (st, n, 0, 0) := by
  intro ts
  induction ts with
  | nil => intro st n _; rfl
  | cons ct rest ih =>
    intro st n h
    unfold _reconcile_categories
    rw [_reconcile_category_ready (h ct (List.mem_cons_self ct rest)).1
      (h ct (List.mem_cons_self ct rest)).2]
    dsimp only
    rw [ih (fun u hu => h u (List.mem_cons_of_mem ct hu))]

/-- Claim C3: if a first reconcile run from a cache whose ids all lie below
the allocator completes successfully (the remote echoes each requested name),
then the second run over the unchanged template, remote allocator and cache
performs zero `create_category` and zero `create_text_channel` calls — and in
fact leaves the cache and the allocator exactly as they were. -/
theorem C3_reconcile_idempotent (sid : Nat) (t : ServerTemplate) (today : Nat)
    (s0 : MemoryState) (n0 : Nat) (r : ReconcileResult)
    (hfresh : s0.fresh n0)
    (h1 : reconcile sid t today s0 n0 = .ok r) :
    reconcile sid t today r.state r.nextId = .ok ⟨r.state, r.nextId, 0, 0⟩ := by
  obtain ⟨hf, hcats, hunc⟩ := reconcile_ok_ready hfresh h1
  unfold reconcile
  rw [_reconcile_categories_ready (t.resolve_patterns today).categories hcats]
  dsimp only
  rw [_reconcile_channels_ready (t.resolve_patterns today).uncategorized_channels hunc]

/-- Witness for C3: one uncategorized text channel, reconciled from the empty
cache with allocator 1; the first run creates channel 1, the second run is
verified to make zero creation calls. -/
theorem C3_witness :
    reconcile 1 ⟨[], [.text ⟨"general", none, none⟩ 0 false], []⟩ 0
        ⟨[], [(1, ⟨1, "general", none, 1, 0, none⟩)], [], []⟩ 2 =
      .ok ⟨⟨[], [(1, ⟨1, "general", none, 1, 0, none⟩)], [], []⟩, 2, 0, 0⟩ :=
  C3_reconcile_idempotent 1 ⟨[], [.text ⟨"general", none, none⟩ 0 false], []⟩ 0
    MemoryState.empty 1
    ⟨⟨[], [(1, ⟨1, "general", none, 1, 0, none⟩)], [], []⟩, 2, 0, 1⟩
    (by decide) (by decide)

end Discordia
